import Mathlib

/-!
Shallow embedding of `src/concurrency/queue/cross_thread_limited_fifo.hpp`
(`cross_thread_limited_fifo_t`), a bounded single-producer cross-thread FIFO.

The C++ object lives on a "home" thread and is pushed to from a fixed
"source" thread.  Cross-thread communication happens by posting closures
(`do_on_thread`) which we model as explicit in-flight message buffers:
`inFlightAppend` holds the values of posted `do_push` closures (in posting
order) and `inFlightDone` counts posted `do_done` closures.  The external
primitives are modelled by their observable state: the adjustable capacity
semaphore by `semCount`/`capacity`, the drain semaphore by cumulative
`drainAcquired`/`drainReleased` counters plus its current home thread
`drainHome`, and the availability control by the boolean `available`.

Operations take the identifier `tid` of the thread they execute on and
return `Except Failure _`: `rassert`/`assert_thread` failures become
`Failure.assertWrongThread` / `Failure.assertInDestructor`, and the
unguarded `queue.front()` on an empty queue in `produce_next_value` becomes
`Failure.undefinedBehavior` (the C++ code has no check there at all).
Straight-line operations additionally return an `Event` trace so that
ordering claims (what happens before what, and on which thread) can be
stated.
-/

namespace CrossThreadLimitedFifo

/-- Failure outcomes of an operation of the embedded code: the two fatal
debug assertions (`rassert` on thread identity, `rassert(!in_destructor)`),
and undefined behaviour for the unguarded `queue.front()` on an empty
queue. -/
inductive Failure where
  | assertWrongThread
  | assertInDestructor
  | undefinedBehavior
deriving Repr, DecidableEq

/-- Observable events of the embedded operations, used to state ordering
properties (trace of a call). -/
inductive Event (α : Type) where
  | setDestructorFlag
  | computeSize (k : Nat)
  | switchThread (t : Nat)
  | drainAcquire
  | drainRelease
  | drainWait
  | semAcquire
  | semRelease
  | setSemCapacity (n : Nat)
  | postAppend (v : α)
  | postDone
  | rethreadDrain (t : Nat)
deriving Repr, DecidableEq

/-- Events at which the calling coroutine may suspend: `semaphore.co_lock()`
(capacity acquisition), `drain_semaphore.drain()`, and a synchronous
`on_thread_t` switch.  Posting a closure with `do_on_thread` and
`drain_semaphore.acquire` / `release` never suspend. -/
def Event.maySuspend : Event α → Bool
  | .semAcquire => true
  | .drainWait => true
  | .switchThread _ => true
  | _ => false

/-- Predicate picking out capacity-semaphore release events. -/
def Event.isSemRelease : Event α → Bool
  | .semRelease => true
  | _ => false

/-- Predicate picking out drain-semaphore release events. -/
def Event.isDrainRelease : Event α → Bool
  | .drainRelease => true
  | _ => false

/-- State of a `cross_thread_limited_fifo_t` object together with the
observable state of its collaborator primitives and the in-flight
cross-thread messages. -/
structure State (α : Type) where
  sourceThread : Nat
  homeThread : Nat
  capacity : Nat
  semCount : Nat
  drainAcquired : Nat
  drainReleased : Nat
  drainHome : Nat
  inDestructor : Bool
  queue : List α
  available : Bool
  inFlightAppend : List α
  inFlightDone : Nat
deriving Repr, DecidableEq

/-- Current count of the drain semaphore: units acquired and not yet
released. -/
def drainCount (s : State α) : Nat :=
  s.drainAcquired - s.drainReleased

/-- Whether a call to `drain_semaphore.drain()` in state `s` would block
(the count has not yet reached zero). -/
def drainWouldBlock (s : State α) : Bool :=
  decide (0 < drainCount s)

/-- State after member initialization of the constructor, before its body
runs: the drain semaphore is constructed on the home thread, `in_destructor`
is `false`, the queue is empty and availability is unset. -/
def initMembers (α : Type) (st homeT cap : Nat) : State α :=
  { sourceThread := st
    homeThread := homeT
    capacity := cap
    semCount := 0
    drainAcquired := 0
    drainReleased := 0
    drainHome := homeT
    inDestructor := false
    queue := []
    available := false
    inFlightAppend := []
    inFlightDone := 0 }

/-- State after the constructor completes: the body executes
`drain_semaphore.rethread(source_thread)`, moving the drain semaphore's
home to the source thread. -/
def init (α : Type) (st homeT cap : Nat) : State α :=
  { initMembers α st homeT cap with drainHome := st }

/-- Trace of events emitted by a successful `push` call: acquire the drain
semaphore, acquire a capacity slot (`co_lock`, the only suspension point),
post the append closure to the home thread. -/
def pushTrace (v : α) : List (Event α) :=
  [Event.drainAcquire, Event.semAcquire, Event.postAppend v]

/-- Embedding of `push(value)`: asserts it runs on the source thread, then
acquires the drain semaphore, acquires one capacity slot, and posts a
`do_push` closure carrying the value to the home thread.  It returns as
soon as the closure is enqueued (`inFlightAppend`); the buffer itself is
untouched. -/
def push (tid : Nat) (v : α) (s : State α) :
    Except Failure (State α × List (Event α)) :=
  if tid = s.sourceThread then
    Except.ok
      ({ s with
          drainAcquired := s.drainAcquired + 1
          semCount := s.semCount + 1
          inFlightAppend := s.inFlightAppend ++ [v] },
        pushTrace v)
  else Except.error Failure.assertWrongThread

/-- Embedding of the private `do_push(value)` (the posted append closure,
running on the home thread): asserts the home thread and that destruction
has not begun, appends the value to the buffer tail and recomputes the
availability signal from the new buffer. -/
def do_push (tid : Nat) (v : α) (s : State α) : Except Failure (State α) :=
  if tid = s.homeThread then
    if s.inDestructor then Except.error Failure.assertInDestructor
    else
      Except.ok { s with
        queue := s.queue ++ [v]
        available := !(s.queue ++ [v]).isEmpty }
  else Except.error Failure.assertWrongThread

/-- Embedding of the private `do_done()` (the posted completion closure,
running on the source thread): asserts the source thread, releases one
capacity slot (`semaphore.unlock()`) and one drain unit. -/
def do_done (tid : Nat) (s : State α) : Except Failure (State α) :=
  if tid = s.sourceThread then
    Except.ok { s with
      semCount := s.semCount - 1
      drainReleased := s.drainReleased + 1 }
  else Except.error Failure.assertWrongThread

/-- Embedding of `produce_next_value()` (invoked by the pull-based consumer
on the home thread): asserts the home thread and that destruction has not
begun, then unconditionally reads `queue.front()` and pops it — on an empty
queue this is undefined behaviour, modelled as `Failure.undefinedBehavior`
(there is no check in the code).  It posts a `do_done` closure to the
source thread and recomputes the availability signal. -/
def produce_next_value (tid : Nat) (s : State α) :
    Except Failure (α × State α) :=
  if tid = s.homeThread then
    if s.inDestructor then Except.error Failure.assertInDestructor
    else
      match s.queue with
      | [] => Except.error Failure.undefinedBehavior
      | v :: rest =>
        Except.ok (v, { s with
          queue := rest
          inFlightDone := s.inFlightDone + 1
          available := !rest.isEmpty })
  else Except.error Failure.assertWrongThread

/-- Embedding of `set_capacity(capacity)`: callable from any thread `tid`;
switches synchronously to the source thread, updates the capacity
semaphore's bound there, and switches back to the caller's thread. -/
def set_capacity (tid : Nat) (n : Nat) (s : State α) :
    State α × List (Event α) :=
  ({ s with capacity := n },
    [Event.switchThread s.sourceThread, Event.setSemCapacity n,
      Event.switchThread tid])

/-- Embedding of the destructor (runs on the home thread):
sets `in_destructor` first, reads `k = queue.size()`, switches to the
source thread, releases the drain semaphore `k` times there, calls
`drain_semaphore.drain()` (blocking until the count is zero), returns to
the home thread, and finally rethreads the drain semaphore to the home
thread.  The buffer and the capacity semaphore are not touched. -/
def destructor (s : State α) : State α × List (Event α) :=
  ({ s with
      inDestructor := true
      drainReleased := s.drainReleased + s.queue.length
      drainHome := s.homeThread },
    [Event.setDestructorFlag, Event.computeSize s.queue.length,
        Event.switchThread s.sourceThread]
      ++ List.replicate s.queue.length Event.drainRelease
      ++ [Event.drainWait, Event.switchThread s.homeThread,
          Event.rethreadDrain s.homeThread])

/-- Scheduler model: push each value of a list in order from the source
thread, with no intervening pops. -/
def pushAll : List α → State α → Except Failure (State α)
  | [], s => Except.ok s
  | v :: vs, s =>
    match push s.sourceThread v s with
    | Except.ok (s', _) => pushAll vs s'
    | Except.error e => Except.error e

/-- Scheduler model: deliver a list of posted append closures, in posting
order, on the home thread. -/
def deliverList : List α → State α → Except Failure (State α)
  | [], s => Except.ok s
  | v :: vs, s =>
    match do_push s.homeThread v s with
    | Except.ok s' => deliverList vs s'
    | Except.error e => Except.error e

/-- Scheduler model: deliver every currently in-flight append closure, in
posting order, on the home thread. -/
def deliverAll (s : State α) : Except Failure (State α) :=
  deliverList s.inFlightAppend { s with inFlightAppend := [] }

/-- Scheduler model: call `produce_next_value` `n` times on the home
thread, collecting the returned values in order. -/
def popN : Nat → State α → Except Failure (List α × State α)
  | 0, s => Except.ok ([], s)
  | n + 1, s =>
    match produce_next_value s.homeThread s with
    | Except.ok (v, s') =>
      match popN n s' with
      | Except.ok (vs, s'') => Except.ok (v :: vs, s'')
      | Except.error e => Except.error e
    | Except.error e => Except.error e

/-- Full producer-consumer round trip used by the FIFO property: push a
list of values from the source thread, deliver the posted appends on the
home thread, then pop as many values as were pushed, returning the popped
values. -/
def pushDeliverPop (vs : List α) (s : State α) : Except Failure (List α) :=
  match pushAll vs s with
  | Except.ok s₁ =>
    match deliverAll s₁ with
    | Except.ok s₂ =>
      match popN vs.length s₂ with
      | Except.ok (out, _) => Except.ok out
      | Except.error e => Except.error e
    | Except.error e => Except.error e
  | Except.error e => Except.error e

/-- Concrete freshly constructed queue used by witnesses: source thread 1,
home thread 0, capacity 4. -/
def exInit : State Nat := init Nat 1 0 4

/-- Concrete state after one delivered append of the value 7. -/
def exPushed : State Nat := { exInit with queue := [7], available := true }

/-- Concrete state after popping the single element of `exPushed`. -/
def exPopped : State Nat :=
  { exPushed with queue := [], available := false, inFlightDone := 1 }

/-- Concrete state after one `push` of the value 7 whose append closure is
still in flight. -/
def exAfterPush : State Nat :=
  { exInit with drainAcquired := 1, semCount := 1, inFlightAppend := [7] }

/-- Concrete quiescent state with three elements resident in the buffer and
no in-flight messages. -/
def exLoaded : State Nat :=
  { exInit with
      queue := [10, 20, 30], drainAcquired := 3, semCount := 3,
      available := true }

/-- Result of running the completion closure `do_done` once on `exLoaded`. -/
def exDone : State Nat := { exLoaded with semCount := 2, drainReleased := 1 }

/-- Concrete state whose destruction flag has been set. -/
def exDestroyed : State Nat := { exInit with inDestructor := true }

/-- Conservation bookkeeping: drain units acquired equal drain units
released plus elements resident in the buffer plus in-flight append and
completion messages. -/
def conserved (s : State α) : Prop :=
  s.drainAcquired =
    s.drainReleased + s.queue.length + s.inFlightAppend.length
      + s.inFlightDone

/-- One atomic transition of the system during normal operation: a `push`
on the source thread, the delivery of an in-flight append closure on the
home thread, a `produce_next_value` on the home thread, or the delivery of
an in-flight completion closure on the source thread. -/
inductive Step : State α → State α → Prop where
  | push_step (s : State α) (v : α) (s' : State α) (tr : List (Event α)) :
      push s.sourceThread v s = Except.ok (s', tr) → Step s s'
  | deliver_append (s : State α) (v : α) (rest : List α) (s' : State α) :
      s.inFlightAppend = v :: rest →
      do_push s.homeThread v { s with inFlightAppend := rest } =
        Except.ok s' →
      Step s s'
  | pop_step (s : State α) (v : α) (s' : State α) :
      produce_next_value s.homeThread s = Except.ok (v, s') → Step s s'
  | deliver_done (s : State α) (s' : State α) :
      0 < s.inFlightDone →
      do_done s.sourceThread { s with inFlightDone := s.inFlightDone - 1 } =
        Except.ok s' →
      Step s s'

/-- A state is reachable when it arises from a freshly constructed queue by
a finite sequence of steps. -/
def Reachable (α : Type) (st homeT cap : Nat) (s : State α) : Prop :=
  Relation.ReflTransGen Step (init α st homeT cap) s

/-- Helper: counting with a predicate over a replicated list yields the
length when the predicate holds of the repeated element and zero
otherwise. -/
theorem countP_replicate_eq (p : Event α → Bool) (k : Nat) (e : Event α) :
    (List.replicate k e).countP p = if p e then k else 0 := by
  induction k with
  | zero => simp
  | succ n ih =>
    rw [List.replicate_succ, List.countP_cons, ih]
    cases h : p e <;> simp [h]

/-- C4: immediately after every mutation of the buffer — every append
(`do_push`) and every pop (`produce_next_value`) — the availability signal
equals "buffer is non-empty"; it is never stale. -/
theorem C4_availability (α : Type) :
    (∀ (tid : Nat) (v : α) (s s' : State α),
        do_push tid v s = Except.ok s' →
          s'.available = !s'.queue.isEmpty)
  ∧ (∀ (tid : Nat) (s : State α) (v : α) (s' : State α),
        produce_next_value tid s = Except.ok (v, s') →
          s'.available = !s'.queue.isEmpty) := by
  constructor
  · intro tid v s s' h
    unfold do_push at h
    split at h
    · split at h
      · exact absurd h (by simp)
      · obtain ⟨rfl⟩ := Except.ok.inj h
        simp
    · exact absurd h (by simp)
  · intro tid s v s' h
    unfold produce_next_value at h
    split at h
    · split at h
      · exact absurd h (by simp)
      · cases hq : s.queue with
        | nil => rw [hq] at h; exact absurd h (by simp)
        | cons a rest =>
          rw [hq] at h
          obtain ⟨-, rfl⟩ := Prod.mk.injEq .. ▸ Except.ok.inj h
          simp
    · exact absurd h (by simp)

/-- C4 witness: concrete append and pop on the example states. -/
theorem C4_witness :
    exPushed.available = !exPushed.queue.isEmpty
  ∧ exPopped.available = !exPopped.queue.isEmpty :=
  ⟨(C4_availability Nat).1 0 7 exInit exPushed rfl,
   (C4_availability Nat).2 0 exPushed 7 exPopped rfl⟩

/-- C5: every `push` performs, in order: acquire one drain unit, acquire
one capacity slot (the only suspension point of the call), then post the
append closure to the home thread; `push` returns with the append merely
enqueued in flight — the buffer and availability signal are untouched. -/
theorem C5_push_steps (α : Type) (v : α) (s : State α) :
    push s.sourceThread v s =
      Except.ok ({ s with
          drainAcquired := s.drainAcquired + 1
          semCount := s.semCount + 1
          inFlightAppend := s.inFlightAppend ++ [v] }, pushTrace v)
  ∧ (pushTrace v : List (Event α)) =
      [Event.drainAcquire, Event.semAcquire, Event.postAppend v]
  ∧ (pushTrace v : List (Event α)).filter Event.maySuspend =
      [Event.semAcquire]
  ∧ ({ s with
        drainAcquired := s.drainAcquired + 1
        semCount := s.semCount + 1
        inFlightAppend := s.inFlightAppend ++ [v] } : State α).queue =
      s.queue := by
  refine ⟨?_, rfl, rfl, rfl⟩
  simp [push]

/-- C8: `set_capacity` may be called from any thread `tid`; it switches to
the source thread, updates the capacity bound there, switches back to the
caller's thread, and changes nothing else. -/
theorem C8_set_capacity_spec (α : Type) (tid n : Nat) (s : State α) :
    (set_capacity tid n s).1 = { s with capacity := n }
  ∧ (set_capacity tid n s).2 =
      [Event.switchThread s.sourceThread, Event.setSemCapacity n,
        Event.switchThread tid] :=
  ⟨rfl, rfl⟩

/-- C9: on the home thread with destruction not begun,
`produce_next_value` unconditionally reads and removes the buffer head:
on a non-empty buffer it returns the head, and on the empty buffer there
is no guarded error branch — the front access is undefined behaviour. -/
theorem C9_produce_unguarded (α : Type) (s : State α)
    (h : s.inDestructor = false) :
    (s.queue = [] →
        produce_next_value s.homeThread s =
          Except.error Failure.undefinedBehavior)
  ∧ (∀ (v : α) (rest : List α), s.queue = v :: rest →
        produce_next_value s.homeThread s =
          Except.ok (v, { s with
            queue := rest
            inFlightDone := s.inFlightDone + 1
            available := !rest.isEmpty })) := by
  constructor
  · intro hq
    simp [produce_next_value, h, hq]
  · intro v rest hq
    simp [produce_next_value, h, hq]

/-- C9 witness: popping the empty example queue is undefined; popping the
one-element example queue returns its head. -/
theorem C9_witness :
    produce_next_value exInit.homeThread exInit =
      Except.error Failure.undefinedBehavior
  ∧ produce_next_value exPushed.homeThread exPushed =
      Except.ok (7, exPopped) := by
  constructor
  · exact (C9_produce_unguarded Nat exInit rfl).1 rfl
  · have h := (C9_produce_unguarded Nat exPushed rfl).2 7 [] rfl
    exact h

/-- C6: every contract violation is reported via fatal debug assertion,
never via an error value: `push` and `do_done` assert the source thread,
`do_push` and `produce_next_value` assert the home thread and that
destruction has not begun; under correct usage none of these assertions
fires. -/
theorem C6_fatal_assertions (α : Type) :
    (∀ (tid : Nat) (v : α) (s : State α), tid ≠ s.sourceThread →
        push tid v s = Except.error Failure.assertWrongThread)
  ∧ (∀ (tid : Nat) (s : State α), tid ≠ s.sourceThread →
        do_done tid s = Except.error Failure.assertWrongThread)
  ∧ (∀ (tid : Nat) (v : α) (s : State α), tid ≠ s.homeThread →
        do_push tid v s = Except.error Failure.assertWrongThread)
  ∧ (∀ (v : α) (s : State α), s.inDestructor = true →
        do_push s.homeThread v s = Except.error Failure.assertInDestructor)
  ∧ (∀ (tid : Nat) (s : State α), tid ≠ s.homeThread →
        produce_next_value tid s =
          Except.error Failure.assertWrongThread)
  ∧ (∀ (s : State α), s.inDestructor = true →
        produce_next_value s.homeThread s =
          Except.error Failure.assertInDestructor)
  ∧ (∀ (v : α) (s : State α), (push s.sourceThread v s).isOk = true)
  ∧ (∀ (s : State α), (do_done s.sourceThread s).isOk = true)
  ∧ (∀ (v : α) (s : State α), s.inDestructor = false →
        (do_push s.homeThread v s).isOk = true)
  ∧ (∀ (s : State α), s.inDestructor = false → s.queue ≠ [] →
        (produce_next_value s.homeThread s).isOk = true) := by
  refine ⟨?_, ?_, ?_, ?_, ?_, ?_, ?_, ?_, ?_, ?_⟩
  · intro tid v s h; simp [push, h]
  · intro tid s h; simp [do_done, h]
  · intro tid v s h; simp [do_push, h]
  · intro v s h; simp [do_push, h]
  · intro tid s h; simp [produce_next_value, h]
  · intro s h; simp [produce_next_value, h]
  · intro v s; simp [push, Except.isOk, Except.toBool]
  · intro s; simp [do_done, Except.isOk, Except.toBool]
  · intro v s h; simp [do_push, h, Except.isOk, Except.toBool]
  · intro s h hq
    cases hv : s.queue with
    | nil => exact absurd hv hq
    | cons a rest =>
      simp [produce_next_value, h, hv, Except.isOk, Except.toBool]

/-- C6 witness: each assertion fired by a concrete violation, and each
operation succeeding under concrete correct usage. -/
theorem C6_witness :
    push 0 7 exInit = Except.error Failure.assertWrongThread
  ∧ do_done 0 exInit = Except.error Failure.assertWrongThread
  ∧ do_push 1 7 exInit = Except.error Failure.assertWrongThread
  ∧ do_push exDestroyed.homeThread 7 exDestroyed =
      Except.error Failure.assertInDestructor
  ∧ produce_next_value 1 exInit = Except.error Failure.assertWrongThread
  ∧ produce_next_value exDestroyed.homeThread exDestroyed =
      Except.error Failure.assertInDestructor
  ∧ (push exInit.sourceThread 7 exInit).isOk = true
  ∧ (do_done exInit.sourceThread exInit).isOk = true
  ∧ (do_push exInit.homeThread 7 exInit).isOk = true
  ∧ (produce_next_value exPushed.homeThread exPushed).isOk = true :=
  ⟨(C6_fatal_assertions Nat).1 0 7 exInit (by decide),
   (C6_fatal_assertions Nat).2.1 0 exInit (by decide),
   (C6_fatal_assertions Nat).2.2.1 1 7 exInit (by decide),
   (C6_fatal_assertions Nat).2.2.2.1 7 exDestroyed rfl,
   (C6_fatal_assertions Nat).2.2.2.2.1 1 exInit (by decide),
   (C6_fatal_assertions Nat).2.2.2.2.2.1 exDestroyed rfl,
   (C6_fatal_assertions Nat).2.2.2.2.2.2.1 7 exInit,
   (C6_fatal_assertions Nat).2.2.2.2.2.2.2.1 exInit,
   (C6_fatal_assertions Nat).2.2.2.2.2.2.2.2.1 7 exInit rfl,
   (C6_fatal_assertions Nat).2.2.2.2.2.2.2.2.2 exPushed rfl (by decide)⟩

/-- C7 counterexample: the claim says the drain primitive's steady-state
home is the home thread, but already for the freshly constructed concrete
queue the drain semaphore's home is the source thread (the constructor
rethreads it there), not the home thread. -/
theorem C7_counterexample :
    (init Nat 1 0 4).drainHome ≠ (init Nat 1 0 4).homeThread
  ∧ (init Nat 1 0 4).drainHome = (init Nat 1 0 4).sourceThread := by
  decide

/-- C7 amended: the drain primitive's steady-state home is the source
thread — the constructor rethreads it from the home thread to the source
thread, no normal operation changes it, and it is rethreaded to the home
thread only at the very end of teardown (the destructor's final action). -/
theorem C7_drain_home_amended (α : Type) :
    (∀ (st homeT cap : Nat),
        (initMembers α st homeT cap).drainHome = homeT)
  ∧ (∀ (st homeT cap : Nat), (init α st homeT cap).drainHome = st)
  ∧ (∀ (tid : Nat) (v : α) (s s' : State α) (tr : List (Event α)),
        push tid v s = Except.ok (s', tr) → s'.drainHome = s.drainHome)
  ∧ (∀ (tid : Nat) (v : α) (s s' : State α),
        do_push tid v s = Except.ok s' → s'.drainHome = s.drainHome)
  ∧ (∀ (tid : Nat) (s : State α) (v : α) (s' : State α),
        produce_next_value tid s = Except.ok (v, s') →
          s'.drainHome = s.drainHome)
  ∧ (∀ (tid : Nat) (s s' : State α),
        do_done tid s = Except.ok s' → s'.drainHome = s.drainHome)
  ∧ (∀ (tid n : Nat) (s : State α),
        (set_capacity tid n s).1.drainHome = s.drainHome)
  ∧ (∀ (s : State α), (destructor s).1.drainHome = s.homeThread)
  ∧ (∀ (s : State α),
        (destructor s).2.getLast? =
          some (Event.rethreadDrain s.homeThread)) := by
  refine ⟨fun st homeT cap => rfl, fun st homeT cap => rfl,
    ?_, ?_, ?_, ?_, fun tid n s => rfl, fun s => rfl, ?_⟩
  · intro tid v s s' tr h
    unfold push at h
    split at h
    · obtain ⟨rfl, -⟩ := Prod.mk.injEq .. ▸ Except.ok.inj h
      rfl
    · exact absurd h (by simp)
  · intro tid v s s' h
    unfold do_push at h
    split at h
    · split at h
      · exact absurd h (by simp)
      · obtain ⟨rfl⟩ := Except.ok.inj h; rfl
    · exact absurd h (by simp)
  · intro tid s v s' h
    unfold produce_next_value at h
    split at h
    · split at h
      · exact absurd h (by simp)
      · cases hq : s.queue with
        | nil => rw [hq] at h; exact absurd h (by simp)
        | cons a rest =>
          rw [hq] at h
          obtain ⟨-, rfl⟩ := Prod.mk.injEq .. ▸ Except.ok.inj h
          rfl
    · exact absurd h (by simp)
  · intro tid s s' h
    unfold do_done at h
    split at h
    · obtain ⟨rfl⟩ := Except.ok.inj h; rfl
    · exact absurd h (by simp)
  · intro s
    show ((Event.setDestructorFlag :: Event.computeSize s.queue.length ::
        Event.switchThread s.sourceThread ::
        List.replicate s.queue.length Event.drainRelease)
        ++ Event.drainWait :: [Event.switchThread s.homeThread,
            Event.rethreadDrain s.homeThread]).getLast? =
      some (Event.rethreadDrain s.homeThread)
    rw [List.getLast?_append_cons]
    rfl

/-- C7 witness: the amended drain-home facts at concrete inputs. -/
theorem C7_witness :
    (initMembers Nat 1 0 4).drainHome = 0
  ∧ (init Nat 1 0 4).drainHome = 1
  ∧ exAfterPush.drainHome = exInit.drainHome
  ∧ exPushed.drainHome = exInit.drainHome
  ∧ exPopped.drainHome = exPushed.drainHome
  ∧ exDone.drainHome = exLoaded.drainHome
  ∧ (set_capacity 0 9 exInit).1.drainHome = exInit.drainHome
  ∧ (destructor exLoaded).1.drainHome = exLoaded.homeThread
  ∧ (destructor exLoaded).2.getLast? =
      some (Event.rethreadDrain exLoaded.homeThread) :=
  ⟨(C7_drain_home_amended Nat).1 1 0 4,
   (C7_drain_home_amended Nat).2.1 1 0 4,
   (C7_drain_home_amended Nat).2.2.1 1 7 exInit exAfterPush (pushTrace 7) rfl,
   (C7_drain_home_amended Nat).2.2.2.1 0 7 exInit exPushed rfl,
   (C7_drain_home_amended Nat).2.2.2.2.1 0 exPushed 7 exPopped rfl,
   (C7_drain_home_amended Nat).2.2.2.2.2.1 1 exLoaded exDone rfl,
   (C7_drain_home_amended Nat).2.2.2.2.2.2.1 0 9 exInit,
   (C7_drain_home_amended Nat).2.2.2.2.2.2.2.1 exLoaded,
   (C7_drain_home_amended Nat).2.2.2.2.2.2.2.2 exLoaded⟩

/-- C10: the destructor only releases the drain semaphore, once per
resident element: the capacity semaphore, the buffer, the availability
signal and the in-flight appends are untouched and no value is delivered —
unlike the normal completion path `do_done`, which releases one capacity
slot and one drain unit. -/
theorem C10_destructor_frame (α : Type) (s : State α) :
    (destructor s).1.semCount = s.semCount
  ∧ (destructor s).1.capacity = s.capacity
  ∧ (destructor s).1.queue = s.queue
  ∧ (destructor s).1.available = s.available
  ∧ (destructor s).1.inFlightAppend = s.inFlightAppend
  ∧ (destructor s).1.drainReleased = s.drainReleased + s.queue.length
  ∧ (destructor s).2.countP Event.isSemRelease = 0
  ∧ (destructor s).2.countP Event.isDrainRelease = s.queue.length
  ∧ (∀ (s' : State α), do_done s.sourceThread s = Except.ok s' →
        s'.semCount = s.semCount - 1 ∧
        s'.drainReleased = s.drainReleased + 1) := by
  refine ⟨rfl, rfl, rfl, rfl, rfl, rfl, ?_, ?_, ?_⟩
  · simp [destructor, List.countP_append, List.countP_cons,
      countP_replicate_eq, Event.isSemRelease]
  · simp [destructor, List.countP_append, List.countP_cons,
      countP_replicate_eq, Event.isDrainRelease]
  · intro s' h
    unfold do_done at h
    split at h
    · obtain ⟨rfl⟩ := Except.ok.inj h; exact ⟨rfl, rfl⟩
    · exact absurd h (by simp)

/-- C10 witness: running the normal completion path once on the concrete
loaded state releases one capacity slot and one drain unit. -/
theorem C10_witness :
    exDone.semCount = exLoaded.semCount - 1
  ∧ exDone.drainReleased = exLoaded.drainReleased + 1 :=
  (C10_destructor_frame Nat exLoaded).2.2.2.2.2.2.2.2 exDone rfl

/-- Helper: pushing a list of values from the source thread always
succeeds, appends exactly those values in order to the in-flight append
messages, and leaves the buffer, the destruction flag and the thread
identifiers unchanged. -/
theorem pushAll_spec (α : Type) (vs : List α) (s : State α) :
    ∃ s₁, pushAll vs s = Except.ok s₁
      ∧ s₁.inFlightAppend = s.inFlightAppend ++ vs
      ∧ s₁.queue = s.queue
      ∧ s₁.inDestructor = s.inDestructor
      ∧ s₁.homeThread = s.homeThread
      ∧ s₁.sourceThread = s.sourceThread := by
  induction vs generalizing s with
  | nil => exact ⟨s, rfl, by simp, rfl, rfl, rfl, rfl⟩
  | cons v vs ih =>
    obtain ⟨s₁, h1, h2, h3, h4, h5, h6⟩ := ih { s with
        drainAcquired := s.drainAcquired + 1
        semCount := s.semCount + 1
        inFlightAppend := s.inFlightAppend ++ [v] }
    refine ⟨s₁, ?_, ?_, h3, h4, h5, h6⟩
    · simp only [pushAll, push, if_pos]
      exact h1
    · rw [h2]
      simp

/-- Helper: delivering a list of append closures on the home thread of a
state whose destruction flag is unset always succeeds and appends exactly
those values in order to the buffer tail. -/
theorem deliverList_spec (α : Type) (ws : List α) (s : State α)
    (hd : s.inDestructor = false) :
    ∃ s₂, deliverList ws s = Except.ok s₂
      ∧ s₂.queue = s.queue ++ ws
      ∧ s₂.inDestructor = false
      ∧ s₂.homeThread = s.homeThread
      ∧ s₂.inFlightAppend = s.inFlightAppend := by
  induction ws generalizing s with
  | nil => exact ⟨s, rfl, by simp, hd, rfl, rfl⟩
  | cons v ws ih =>
    obtain ⟨s₂, h1, h2, h3, h4, h5⟩ := ih { s with
        inDestructor := false
        queue := s.queue ++ [v]
        available := !(s.queue ++ [v]).isEmpty } rfl
    refine ⟨s₂, ?_, ?_, h3, h4, h5⟩
    · simp only [deliverList, do_push, if_pos, hd, Bool.false_eq_true,
        if_false]
      exact h1
    · rw [h2]
      simp

/-- Helper: with the destruction flag unset and the buffer holding
`pre ++ post`, popping `pre.length` times on the home thread succeeds,
returns exactly `pre` in order and leaves `post` in the buffer. -/
theorem popN_spec (α : Type) (pre : List α) :
    ∀ (post : List α) (s : State α), s.inDestructor = false →
      s.queue = pre ++ post →
      ∃ s₃, popN pre.length s = Except.ok (pre, s₃)
        ∧ s₃.queue = post ∧ s₃.inDestructor = false := by
  induction pre with
  | nil =>
    intro post s hd hq
    exact ⟨s, rfl, by simpa using hq, hd⟩
  | cons v pre ih =>
    intro post s hd hq
    have hstep : produce_next_value s.homeThread s =
        Except.ok (v, { s with
          queue := pre ++ post
          inFlightDone := s.inFlightDone + 1
          available := !(pre ++ post).isEmpty }) := by
      simp [produce_next_value, hd, hq]
    obtain ⟨s₃, h1, h2, h3⟩ := ih post { s with
        queue := pre ++ post
        inFlightDone := s.inFlightDone + 1
        available := !(pre ++ post).isEmpty } hd rfl
    refine ⟨s₃, ?_, h2, h3⟩
    simp only [List.length_cons, popN, hstep, h1]

/-- C2: strict FIFO — pushing v1..vn in order from the source thread with
no intervening pops, then delivering the posted appends, then calling
produce-next-value n times on the home thread, returns v1..vn in exactly
that order. -/
theorem C2_fifo (α : Type) (vs : List α) (s : State α)
    (h1 : s.inDestructor = false) (h2 : s.queue = [])
    (h3 : s.inFlightAppend = []) :
    pushDeliverPop vs s = Except.ok vs := by
  obtain ⟨s₁, hp, hifa, hq, hdf, hhome, hsrc⟩ := pushAll_spec α vs s
  have hifa' : s₁.inFlightAppend = vs := by rw [hifa, h3]; simp
  have hdf' : s₁.inDestructor = false := hdf.trans h1
  obtain ⟨s₂, hd, hq2, hdf2, hhome2, hifa2⟩ :=
    deliverList_spec α vs { s₁ with inFlightAppend := [] } hdf'
  have hq2' : s₂.queue = vs ++ [] := by
    rw [hq2]
    show s₁.queue ++ vs = vs ++ []
    rw [hq, h2]
    simp
  obtain ⟨s₃, hpop, hq3, hdf3⟩ := popN_spec α vs [] s₂ hdf2 hq2'
  unfold pushDeliverPop deliverAll
  rw [hp]
  show (match deliverList s₁.inFlightAppend { s₁ with inFlightAppend := [] }
      with
    | Except.ok s₂ =>
      match popN vs.length s₂ with
      | Except.ok (out, _) => Except.ok out
      | Except.error e => Except.error e
    | Except.error e => Except.error e) = Except.ok vs
  rw [hifa', hd]
  simp [hpop]

/-- C2 witness: the concrete round trip of three values through the
freshly constructed example queue. -/
theorem C2_witness :
    pushDeliverPop [1, 2, 3] exInit = Except.ok [1, 2, 3] :=
  C2_fifo Nat [1, 2, 3] exInit rfl rfl rfl

/-- Helper: a freshly constructed queue satisfies the drain-unit
conservation equation. -/
theorem conserved_init (α : Type) (st homeT cap : Nat) :
    conserved (init α st homeT cap) := by
  simp [conserved, init, initMembers]

/-- Helper: every step of normal operation preserves the drain-unit
conservation equation. -/
theorem conserved_step {α : Type} {s s' : State α}
    (h : Step s s') (hc : conserved s) : conserved s' := by
  unfold conserved at hc ⊢
  cases h with
  | push_step v t tr hp =>
    unfold push at hp
    rw [if_pos rfl] at hp
    obtain ⟨rfl, -⟩ := Prod.mk.injEq .. ▸ Except.ok.inj hp
    simp only [List.length_append, List.length_cons, List.length_nil]
    omega
  | deliver_append v rest t hin hdp =>
    unfold do_push at hdp
    rw [if_pos rfl] at hdp
    split at hdp
    · exact absurd hdp (by simp)
    · obtain ⟨rfl⟩ := Except.ok.inj hdp
      rw [hin] at hc
      simp only [List.length_append, List.length_cons,
        List.length_nil] at hc ⊢
      omega
  | pop_step v t hp =>
    unfold produce_next_value at hp
    rw [if_pos rfl] at hp
    split at hp
    · exact absurd hp (by simp)
    · cases hq : s.queue with
      | nil => rw [hq] at hp; exact absurd hp (by simp)
      | cons a rest =>
        rw [hq] at hp
        obtain ⟨-, rfl⟩ := Prod.mk.injEq .. ▸ Except.ok.inj hp
        rw [hq] at hc
        simp only [List.length_cons] at hc ⊢
        omega
  | deliver_done t hpos hdd =>
    unfold do_done at hdd
    rw [if_pos rfl] at hdd
    obtain ⟨rfl⟩ := Except.ok.inj hdd
    simp only []
    omega

/-- C3: in every reachable history, drain units acquired minus drain units
released equals the number of buffered elements plus the number of
in-flight append and completion messages. -/
theorem C3_conservation (α : Type) (st homeT cap : Nat) (s : State α)
    (h : Reachable α st homeT cap s) : conserved s := by
  induction h with
  | refl => exact conserved_init α st homeT cap
  | tail hsteps hstep ih => exact conserved_step hstep ih

/-- C3 witness: the state reached by one concrete push from the freshly
constructed example queue satisfies the conservation equation. -/
theorem C3_witness : conserved exAfterPush :=
  C3_conservation Nat 1 0 4 exAfterPush
    (Relation.ReflTransGen.tail Relation.ReflTransGen.refl
      (Step.push_step exInit 7 exAfterPush (pushTrace 7) rfl))

/-- C1: the destructor first sets the destruction flag, then reads
k = number of buffered elements, then switches to the source thread,
releases the drain semaphore exactly k times there, blocks on drain, and
only then returns to the home thread; when no messages are in flight the
drain count is already zero after the k releases, so the drain call does
not block. -/
theorem C1_destructor_sequence (α : Type) (s : State α)
    (hifa : s.inFlightAppend = []) (hdone : s.inFlightDone = 0)
    (hc : conserved s) :
    (destructor s).1.inDestructor = true
  ∧ (destructor s).2 =
      [Event.setDestructorFlag, Event.computeSize s.queue.length,
          Event.switchThread s.sourceThread]
        ++ List.replicate s.queue.length Event.drainRelease
        ++ [Event.drainWait, Event.switchThread s.homeThread,
            Event.rethreadDrain s.homeThread]
  ∧ (destructor s).2.head? = some Event.setDestructorFlag
  ∧ (destructor s).2.countP Event.isDrainRelease = s.queue.length
  ∧ (destructor s).1.drainReleased = s.drainReleased + s.queue.length
  ∧ drainWouldBlock (destructor s).1 = false := by
  refine ⟨rfl, rfl, rfl, ?_, rfl, ?_⟩
  · simp [destructor, List.countP_append, List.countP_cons,
      countP_replicate_eq, Event.isDrainRelease]
  · have hk : s.drainAcquired = s.drainReleased + s.queue.length := by
      unfold conserved at hc
      rw [hifa, hdone] at hc
      simpa using hc
    simp [drainWouldBlock, drainCount, destructor, hk]

/-- C1 witness: destruction of the concrete quiescent state with three
buffered elements and no in-flight messages. -/
theorem C1_witness :
    (destructor exLoaded).1.inDestructor = true
  ∧ (destructor exLoaded).2 =
      [Event.setDestructorFlag, Event.computeSize exLoaded.queue.length,
          Event.switchThread exLoaded.sourceThread]
        ++ List.replicate exLoaded.queue.length Event.drainRelease
        ++ [Event.drainWait, Event.switchThread exLoaded.homeThread,
            Event.rethreadDrain exLoaded.homeThread]
  ∧ (destructor exLoaded).2.head? = some Event.setDestructorFlag
  ∧ (destructor exLoaded).2.countP Event.isDrainRelease =
      exLoaded.queue.length
  ∧ (destructor exLoaded).1.drainReleased =
      exLoaded.drainReleased + exLoaded.queue.length
  ∧ drainWouldBlock (destructor exLoaded).1 = false :=
  C1_destructor_sequence Nat exLoaded rfl rfl (by unfold conserved; decide)

end CrossThreadLimitedFifo
